import Mathlib

/-!
# Todo-Backend: the request handlers of `src/index.js`

A shallow embedding of the Express application in `src/index.js`:
the seven routes, the `auth` middleware, and the collaborators the
handlers call (`zod`, `bcrypt`, `jsonwebtoken`, the two Mongoose models).

* A handler is a function from the world (store contents plus the list of
  storage operations performed so far) to a response and a new world.
* `try { ... } catch` is the `.error` branch of each storage step.
* Everything the source takes from its environment (clock, secret,
  hash functions, storage faults) is a field of `Env`.
-/

namespace TodoBackend

/-! ## JSON values and requests -/

/-- A JSON value found in a field of a request body. The handlers only test
the type of a field value, so an array or an object is carried as its text. -/
inductive JVal where
  | null
  | bool (b : Bool)
  | num (n : Int)
  | str (s : String)
  | arr (json : String)
  | obj (json : String)
  deriving DecidableEq, Repr

/-- What `express.json()` leaves in `req.body`: an object (also `{}` when the
request has no body) or an array; it refuses every other top-level value. -/
inductive ReqBody where
  | object (fields : List (String × JVal))
  | array (items : List JVal)
  deriving DecidableEq, Repr

/-- Property read `req.body.k`: `none` is JavaScript `undefined`. -/
def ReqBody.prop (b : ReqBody) (k : String) : Option JVal :=
  match b with
  | .object fields => fields.lookup k
  | .array _ => none

/-- The claims of a token: `id` from the signer, `iat` and `exp` in seconds. -/
structure JwtPayload where
  id : String
  iat : Nat
  exp : Nat
  deriving DecidableEq, Repr

/-- A compact JWT, kept structured: claims and signature. -/
structure Jwt where
  payload : JwtPayload
  signature : String
  deriving DecidableEq, Repr

/-- The value of the `token` request header: the serialisation of a JWT, or
any other text (which `jsonwebtoken` cannot decode). -/
inductive HeaderValue where
  | text (s : String)
  | jwt (t : Jwt)
  deriving DecidableEq, Repr

/-- JavaScript truthiness of a header value: only the empty string is falsy. -/
def HeaderValue.truthy : HeaderValue → Bool
  | .text s => s != ""
  | .jwt _ => true

/-- The parts of a request the handlers read: `req.headers.token`
(`none` when the header is not sent), `req.params.id`, `req.body`. -/
structure Request where
  headers_token : Option HeaderValue
  params_id : String
  body : ReqBody
  deriving DecidableEq, Repr

/-! ## The store -/

/-- Modelled from the spec: `UserModel` comes from `./db`, which is not part
of the sources; a user has an id, a user name, an email and a password hash. -/
structure User where
  _id : String
  userName : String
  email : String
  password : String
  deriving DecidableEq, Repr

/-- Modelled from the spec: `TodoModel` comes from `./db`; a task has an id,
an owner id, a title (stored as received, absent when not sent) and the
`completed` flag. -/
structure Todo where
  _id : String
  userId : String
  title : Option JVal
  completed : Bool
  deriving DecidableEq, Repr

/-- The two collections, in insertion order. -/
structure Db where
  users : List User
  todos : List Todo
  deriving DecidableEq, Repr

/-- A storage operation with its arguments, as the handlers issue it. -/
inductive DbOp where
  | userFindOne (email : Option JVal)
  | userCreate (userName email password : String)
  | todoCreate (userId : String) (title : Option JVal)
  | todoFind (userId : String)
  | todoFindOne (id userId : String)
  | todoFindByIdAndDelete (id : String)
  | todoFindOneAndUpdate (id userId : String) (completed : Bool)
  deriving DecidableEq, Repr

/-- Store contents and the storage operations performed so far. -/
structure World where
  db : Db
  log : List DbOp
  deriving DecidableEq, Repr

/-! ## Responses -/

/-- The JSON bodies the handlers send. -/
inductive Body where
  | text (s : String)
  | message (message : String)
  | messageError (message error : String)
  | signinFailure (success : Bool) (message : String)
  | signinSuccess (success : Bool) (message : String) (token : Jwt)
  | userCreated (message : String) (user : User)
  | todo (t : Todo)
  | todos (ts : List Todo)
  deriving DecidableEq, Repr

/-- Status code and body; `res.json` without `res.status` sends 200. -/
structure Response where
  status : Nat
  body : Body
  deriving DecidableEq, Repr

/-! ## Environment -/

/-- One issue reported by the `zod` schema of `/signup`. -/
inductive ZodIssue where
  | notObject
  | required (path : String)
  | notString (path : String) (received : JVal)
  | invalidEmail
  | tooShort
  deriving DecidableEq, Repr

/-- What a request takes from outside the handler code. -/
structure Env where
  /-- The variable `process.env.JWT_SECRET`. -/
  JWT_SECRET : Option String
  /-- Clock in whole seconds, the unit of the `iat` and `exp` claims. -/
  now : Nat
  /-- Fault the storage layer raises for an operation, if any. -/
  fault : DbOp → Option String
  /-- Signature of `jsonwebtoken` over the claims under a secret. -/
  hmac : String → JwtPayload → String
  /-- Result of `bcrypt.hash(password, 10)` in this request (salt included). -/
  bcryptHash : String → String
  /-- Result of `bcrypt.compare(password, digest)` on two strings. -/
  bcryptCompare : String → String → Bool
  /-- The email test of `z.string().email()`. -/
  isEmail : String → Bool
  /-- The message `zod` attaches to an issue. -/
  zodMessage : ZodIssue → String
  /-- How the store matches the filter `{ email }` when `email` is not a
  string (query casting and operators of the storage library). -/
  looseEmailMatch : Option JVal → User → Bool

/-- Line 8: `process.env.JWT_SECRET || "hiitheresecret"`. -/
def JWT_secret (env : Env) : String :=
  match env.JWT_SECRET with
  | some s => if s != "" then s else "hiitheresecret"
  | none => "hiitheresecret"

/-! ## Collaborators -/

/-- Length of a JavaScript string: UTF-16 code units. -/
def utf16Length (s : String) : Nat :=
  (s.toList.map (fun c => if c.val.toNat < 65536 then 1 else 2)).sum

/-- The seconds in `expiresIn: "24h"`. -/
def expiresIn24h : Nat := 24 * 60 * 60

/-- Call `Jwt.sign({ id }, secret, { expiresIn })`: the claims carry the issue
time and the expiry `iat + expiresIn`, signed under the secret. -/
def Jwt.sign (env : Env) (id : String) (secret : String) (expiresIn : Nat) : Jwt :=
  let payload : JwtPayload := ⟨id, env.now, env.now + expiresIn⟩
  ⟨payload, env.hmac secret payload⟩

/-- Call `Jwt.verify(token, secret)`: throws on text that is no JWT, on a
signature that does not match, and when the clock has reached `exp`;
otherwise returns the claims. -/
def Jwt.verify (env : Env) (token : HeaderValue) (secret : String) : Except String JwtPayload :=
  match token with
  | .text s => if s == "" then .error "jwt must be provided" else .error "jwt malformed"
  | .jwt t =>
    if t.signature != env.hmac secret t.payload then .error "invalid signature"
    else if env.now ≥ t.payload.exp then .error "jwt expired"
    else .ok t.payload

/-- Call `bcrypt.compare(password, digest)`: throws unless `password` is a string. -/
def bcrypt.compare (env : Env) (password : Option JVal) (digest : String) : Except String Bool :=
  match password with
  | some (.str p) => .ok (env.bcryptCompare p digest)
  | none => .error "data and hash arguments required"
  | some _ => .error "data and hash must be strings"

/-- The validated fields of a signup body. -/
structure SignupData where
  userName : String
  email : String
  password : String
  deriving DecidableEq, Repr

/-- Check `z.string()` on field `k`. -/
def schema.string (fields : List (String × JVal)) (k : String) : Except ZodIssue String :=
  match fields.lookup k with
  | none => .error (.required k)
  | some (.str s) => .ok s
  | some v => .error (.notString k v)

/-- Check `z.string().email()` on field `email`. -/
def schema.email (env : Env) (fields : List (String × JVal)) : Except ZodIssue String :=
  match schema.string fields "email" with
  | .error i => .error i
  | .ok s => if env.isEmail s then .ok s else .error .invalidEmail

/-- Check `z.string().min(5)` on field `password`. -/
def schema.password (fields : List (String × JVal)) : Except ZodIssue String :=
  match schema.string fields "password" with
  | .error i => .error i
  | .ok s => if 5 ≤ utf16Length s then .ok s else .error .tooShort

/-- The issue of a field check, if it failed. -/
def schema.issueOf (r : Except ZodIssue String) : List ZodIssue :=
  match r with
  | .error i => [i]
  | .ok _ => []

/-- Lines 28-34: `schema.safeParse(req.body)`: the validated data, or the
issues of all three fields in schema order (first issue apart). -/
def schema.safeParse (env : Env) (body : ReqBody) : Except (ZodIssue × List ZodIssue) SignupData :=
  match body with
  | .array _ => .error (.notObject, [])
  | .object fields =>
    match schema.string fields "userName", schema.email env fields, schema.password fields with
    | .ok userName, .ok email, .ok password => .ok ⟨userName, email, password⟩
    | r1, r2, r3 =>
      match schema.issueOf r1 ++ schema.issueOf r2 ++ schema.issueOf r3 with
      | i :: rest => .error (i, rest)
      | [] => .error (.notObject, [])

/-! ## Storage operations -/

/-- One round trip to the store: the operation is recorded; when the storage
layer raises a fault the store is left as it is. -/
def dbStep {α : Type} (env : Env) (op : DbOp) (run : Db → α × Db) (w : World) :
    Except String α × World :=
  match env.fault op with
  | some e => (.error e, ⟨w.db, w.log ++ [op]⟩)
  | none => (.ok (run w.db).1, ⟨(run w.db).2, w.log ++ [op]⟩)

/-- Modelled from the spec: the opaque unique id the store gives a new record;
here an id that no record in `ids` carries (it is longer than each of them). -/
def freshId (ids : List String) : String :=
  ids.foldr (fun s acc => s ++ acc) "0"

/-- Whether a user matches the filter `{ email }`. -/
def matchesEmail (env : Env) (email : Option JVal) (u : User) : Bool :=
  match email with
  | some (.str e) => u.email == e
  | other => env.looseEmailMatch other u

/-- Modelled from the spec: `UserModel.findOne({ email })` on the model of
`./db`: the first user that matches. -/
def UserModel.findOne (env : Env) (email : Option JVal) (w : World) :
    Except String (Option User) × World :=
  dbStep env (.userFindOne email) (fun db => (db.users.find? (matchesEmail env email), db)) w

/-- Modelled from the spec: `UserModel.create({ userName, email, password })`
on the model of `./db`: a plain insert under a fresh id, returning the new
document (no uniqueness check of its own). -/
def UserModel.create (env : Env) (userName email password : String) (w : World) :
    Except String User × World :=
  dbStep env (.userCreate userName email password)
    (fun db =>
      let user : User := ⟨freshId (db.users.map (fun u => u._id)), userName, email, password⟩
      (user, ⟨db.users ++ [user], db.todos⟩)) w

/-- Modelled from the spec: `TodoModel.create({ userId, title, completed })` on
the model of `./db`: an insert under a fresh id, returning the new document. -/
def TodoModel.create (env : Env) (userId : String) (title : Option JVal) (completed : Bool)
    (w : World) : Except String Todo × World :=
  dbStep env (.todoCreate userId title)
    (fun db =>
      let todo : Todo := ⟨freshId (db.todos.map (fun t => t._id)), userId, title, completed⟩
      (todo, ⟨db.users, db.todos ++ [todo]⟩)) w

/-- Modelled from the spec: `TodoModel.find({ userId })`: every task of that
owner, in store order. -/
def TodoModel.find (env : Env) (userId : String) (w : World) :
    Except String (List Todo) × World :=
  dbStep env (.todoFind userId) (fun db => (db.todos.filter (fun t => t.userId == userId), db)) w

/-- Modelled from the spec: `TodoModel.findOne({ _id, userId })`: the first
task with both. -/
def TodoModel.findOne (env : Env) (id userId : String) (w : World) :
    Except String (Option Todo) × World :=
  dbStep env (.todoFindOne id userId)
    (fun db => (db.todos.find? (fun t => t._id == id && t.userId == userId), db)) w

/-- Modelled from the spec: `TodoModel.findByIdAndDelete(id)`: removes the
first task with that id, whoever owns it, and returns it. -/
def TodoModel.findByIdAndDelete (env : Env) (id : String) (w : World) :
    Except String (Option Todo) × World :=
  dbStep env (.todoFindByIdAndDelete id)
    (fun db => (db.todos.find? (fun t => t._id == id),
      ⟨db.users, db.todos.eraseP (fun t => t._id == id)⟩)) w

/-- Set `completed` on the first task that satisfies `p`; the updated task
and the new list. -/
def setCompletedFirst (p : Todo → Bool) (completed : Bool) :
    List Todo → Option Todo × List Todo
  | [] => (none, [])
  | t :: ts =>
    if p t then (some ⟨t._id, t.userId, t.title, completed⟩,
      ⟨t._id, t.userId, t.title, completed⟩ :: ts)
    else ((setCompletedFirst p completed ts).1, t :: (setCompletedFirst p completed ts).2)

/-- Modelled from the spec:
`TodoModel.findOneAndUpdate({ _id, userId }, { completed }, { new: true })`:
one atomic step that returns the document after the update. -/
def TodoModel.findOneAndUpdate (env : Env) (id userId : String) (completed : Bool)
    (w : World) : Except String (Option Todo) × World :=
  dbStep env (.todoFindOneAndUpdate id userId completed)
    (fun db =>
      let r := setCompletedFirst (fun t => t._id == id && t.userId == userId) completed db.todos
      (r.1, ⟨db.users, r.2⟩)) w

/-! ## Handlers -/

/-- Result of a handler: the response sent and the world after it. -/
abbrev Outcome := Response × World

/-- Lines 22-24: `GET /`. -/
def root (_req : Request) (w : World) : Outcome :=
  (⟨200, .text "hello world"⟩, w)

/-- Lines 25-64: `POST /signup`. -/
def signup (env : Env) (req : Request) (w : World) : Outcome :=
  match schema.safeParse env req.body with
  | .error issues => (⟨400, .message (env.zodMessage issues.1)⟩, w)
  | .ok data =>
    match UserModel.findOne env (some (.str data.email)) w with
    | (.error _, w1) => (⟨500, .message "Error creating user"⟩, w1)
    | (.ok (some _), w1) => (⟨400, .message "Email already exists"⟩, w1)
    | (.ok none, w1) =>
      match UserModel.create env data.userName data.email (env.bcryptHash data.password) w1 with
      | (.error _, w2) => (⟨500, .message "Error creating user"⟩, w2)
      | (.ok user, w2) => (⟨201, .userCreated "User created successfully" user⟩, w2)

/-- Lines 66-96: `POST /signin`. -/
def signin (env : Env) (req : Request) (w : World) : Outcome :=
  let email := req.body.prop "email"
  let password := req.body.prop "password"
  match UserModel.findOne env email w with
  | (.error _, w1) => (⟨500, .signinFailure false "Server error during signin"⟩, w1)
  | (.ok none, w1) => (⟨401, .signinFailure false "Invalid email or password"⟩, w1)
  | (.ok (some user), w1) =>
    match bcrypt.compare env password user.password with
    | .error _ => (⟨500, .signinFailure false "Server error during signin"⟩, w1)
    | .ok false => (⟨401, .signinFailure false "Invalid email or password"⟩, w1)
    | .ok true =>
      let token := Jwt.sign env user._id (JWT_secret env) expiresIn24h
      (⟨200, .signinSuccess true "Successfully signed in" token⟩, w1)

/-- Lines 99-109: the `auth` middleware; `next` is the route handler, called
with `req.userId`. -/
def auth (env : Env) (next : String → Request → World → Outcome) (req : Request)
    (w : World) : Outcome :=
  match req.headers_token with
  | none => (⟨401, .message "No token provided"⟩, w)
  | some token =>
    if !token.truthy then (⟨401, .message "No token provided"⟩, w)
    else
      match Jwt.verify env token (JWT_secret env) with
      | .error _ => (⟨403, .message "Invalid token"⟩, w)
      | .ok data => next data.id req w

/-- Lines 112-124: handler of `POST /todo`. -/
def postTodo (env : Env) (userId : String) (req : Request) (w : World) : Outcome :=
  match TodoModel.create env userId (req.body.prop "title") false w with
  | (.error e, w1) => (⟨500, .messageError "Error creating todo" e⟩, w1)
  | (.ok todo, w1) => (⟨201, .todo todo⟩, w1)

/-- Lines 126-137: handler of `GET /todos`. -/
def getTodos (env : Env) (userId : String) (_req : Request) (w : World) : Outcome :=
  match TodoModel.find env userId w with
  | (.error e, w1) => (⟨500, .messageError "Error fetching todos" e⟩, w1)
  | (.ok todos, w1) =>
    if todos.length == 0 then (⟨404, .message "No todos found"⟩, w1)
    else (⟨200, .todos todos⟩, w1)

/-- Lines 139-152: handler of `DELETE /delete-todo/:id`. -/
def deleteTodo (env : Env) (userId : String) (req : Request) (w : World) : Outcome :=
  let todoId := req.params_id
  match TodoModel.findOne env todoId userId w with
  | (.error e, w1) => (⟨500, .messageError "Error deleting todo" e⟩, w1)
  | (.ok none, w1) => (⟨404, .message "Todo not found or not authorized to delete"⟩, w1)
  | (.ok (some _), w1) =>
    match TodoModel.findByIdAndDelete env todoId w1 with
    | (.error e, w2) => (⟨500, .messageError "Error deleting todo" e⟩, w2)
    | (.ok _, w2) => (⟨200, .message "Todo deleted successfully"⟩, w2)

/-- Lines 154-183: handler of `PUT /update-todo/:id`. -/
def updateTodo (env : Env) (userId : String) (req : Request) (w : World) : Outcome :=
  let todoId := req.params_id
  match todoId == "", req.body.prop "completed" with
  | false, some (.bool completed) =>
    match TodoModel.findOneAndUpdate env todoId userId completed w with
    | (.error e, w1) => (⟨500, .messageError "Error updating todo" e⟩, w1)
    | (.ok none, w1) => (⟨404, .message "Todo not found or not authorized to update"⟩, w1)
    | (.ok (some updatedTodo), w1) => (⟨200, .todo updatedTodo⟩, w1)
  | _, _ => (⟨400, .message "Invalid input. Todo ID and completed status required"⟩, w)

/-- The routes the application registers. -/
inductive Route where
  | getRoot
  | postSignup
  | postSignin
  | postTodo
  | getTodos
  | deleteTodo
  | putUpdateTodo
  deriving DecidableEq, Repr

/-- The application: each route with its middleware chain. -/
def app (env : Env) (route : Route) (req : Request) (w : World) : Outcome :=
  match route with
  | .getRoot => root req w
  | .postSignup => signup env req w
  | .postSignin => signin env req w
  | .postTodo => auth env (postTodo env) req w
  | .getTodos => auth env (getTodos env) req w
  | .deleteTodo => auth env (deleteTodo env) req w
  | .putUpdateTodo => auth env (updateTodo env) req w

/-! ## Vocabulary of the properties -/

/-- The storage layer raises no fault while this request is handled. -/
def Faultless (env : Env) : Prop := ∀ op, env.fault op = none

/-- The request carries a token that `Jwt.verify` accepts now and whose
`id` claim is `userId`. -/
def Authenticated (env : Env) (req : Request) (userId : String) : Prop :=
  ∃ token data, req.headers_token = some token ∧
    Jwt.verify env token (JWT_secret env) = .ok data ∧ data.id = userId

/-- The four routes registered behind the `auth` middleware. -/
def Route.isTaskRoute : Route → Bool
  | .postTodo | .getTodos | .deleteTodo | .putUpdateTodo => true
  | _ => false

/-- Task ids are pairwise distinct, as the store keeps them. -/
def Db.uniqueTodoIds (db : Db) : Prop := (db.todos.map (fun t => t._id)).Nodup

/-- User emails are pairwise distinct. -/
def Db.uniqueEmails (db : Db) : Prop := (db.users.map (fun u => u.email)).Nodup

/-- An environment for the examples: no storage fault, the secret unset. -/
def demoEnv : Env where
  JWT_SECRET := none
  now := 1000
  fault := fun _ => none
  hmac := fun secret payload => secret ++ payload.id
  bcryptHash := fun password => "$" ++ password
  bcryptCompare := fun password digest => "$" ++ password == digest
  isEmail := fun s => s.toList.contains (Char.ofNat 64)
  zodMessage := fun _ => "Invalid input"
  looseEmailMatch := fun _ _ => false

/-- The example environment at another time of day. -/
def demoEnvAt (t : Nat) : Env :=
  ⟨none, t, demoEnv.fault, demoEnv.hmac, demoEnv.bcryptHash, demoEnv.bcryptCompare,
    demoEnv.isEmail, demoEnv.zodMessage, demoEnv.looseEmailMatch⟩

/-- The token `/signin` issues in the example environment for a user id. -/
def demoToken (userId : String) : HeaderValue :=
  .jwt (Jwt.sign demoEnv userId (JWT_secret demoEnv) expiresIn24h)

/-- An example store: one user `u` with one task. -/
def demoWorld : World :=
  ⟨⟨[⟨"u", "ann", "a@x.com", "$secret"⟩], [⟨"1", "u", some (.str "t1"), false⟩]⟩, []⟩

/-- A sequence of `POST /signup` requests, each in its own environment. -/
def signupAll : List (Env × Request) → World → World
  | [], w => w
  | (env, req) :: rest, w => signupAll rest (app env .postSignup req w).2

/-- Any sequence of requests, each in its own environment. -/
def runAll : List (Env × Route × Request) → World → World
  | [], w => w
  | (env, route, req) :: rest, w => runAll rest (app env route req w).2

/-- A signup request with the email of the user in `demoWorld`. -/
def demoSignupDuplicate : Request :=
  ⟨none, "", .object [("userName", .str "bob"), ("email", .str "a@x.com"),
    ("password", .str "hunter2")]⟩

/-- A signup request with an email not in `demoWorld`. -/
def demoSignupFresh : Request :=
  ⟨none, "", .object [("userName", .str "bob"), ("email", .str "b@x.com"),
    ("password", .str "hunter2")]⟩

/-- A signin request with the credentials of the user in `demoWorld`. -/
def demoSignin : Request :=
  ⟨none, "", .object [("email", .str "a@x.com"), ("password", .str "secret")]⟩

/-- The claims and signature `/signin` issues for user `u` in `demoEnv`. -/
def demoJwt : Jwt := Jwt.sign demoEnv "u" (JWT_secret demoEnv) expiresIn24h

/-- User `u` creates a task titled "Buy milk". -/
def demoPostTodo : Request :=
  ⟨some (demoToken "u"), "", .object [("title", .str "Buy milk")]⟩

/-- User `u` lists their tasks. -/
def demoGetTodos : Request := ⟨some (demoToken "u"), "", .object []⟩

/-- User `u` marks the task with the given id as completed. -/
def demoComplete (id : String) : Request :=
  ⟨some (demoToken "u"), id, .object [("completed", .bool true)]⟩

/-- The `error` field of a response body, when it has one. -/
def Body.error : Body → Option String
  | .messageError _ e => some e
  | _ => none

/-- An outcome reports storage faults with `body`: whenever one of the storage
operations performed for the request raised a fault `e`, the response is 500
with body `body e`. -/
def FaultsReported (env : Env) (w : World) (o : Outcome) (body : String → Body) : Prop :=
  ∀ ops op e, o.2.log = w.log ++ ops → op ∈ ops → env.fault op = some e →
    o.1 = ⟨500, body e⟩

/-- The example environment with a storage layer that is down. -/
def faultyEnv : Env :=
  ⟨none, 1000, fun _ => some "connection lost", demoEnv.hmac, demoEnv.bcryptHash,
    demoEnv.bcryptCompare, demoEnv.isEmail, demoEnv.zodMessage, demoEnv.looseEmailMatch⟩

/-- A signin request that has no `password` field. -/
def demoSigninNoPassword : Request :=
  ⟨none, "", .object [("email", .str "nobody@x.com")]⟩

/-- A signin request whose `password` is a number. -/
def demoSigninNumericPassword : Request :=
  ⟨none, "", .object [("email", .str "a@x.com"), ("password", .num 12345)]⟩

/-! ## Lemmas -/

theorem demoEnv_faultless : Faultless demoEnv := fun _ => rfl

theorem demoToken_authenticated (userId id : String) (body : ReqBody) :
    Authenticated demoEnv ⟨some (demoToken userId), id, body⟩ userId := by
  refine ⟨demoToken userId, ⟨userId, 1000, 1000 + expiresIn24h⟩, rfl, ?_, rfl⟩
  simp [demoToken, Jwt.verify, Jwt.sign, demoEnv, expiresIn24h]

theorem auth_of_authenticated {env : Env} {req : Request} {userId : String}
    (h : Authenticated env req userId) (next : String → Request → World → Outcome)
    (w : World) : auth env next req w = next userId req w := by
  obtain ⟨token, data, ht, hv, hid⟩ := h
  cases token with
  | text s =>
    simp only [Jwt.verify] at hv
    split at hv <;> cases hv
  | jwt t => simp [auth, ht, hv, hid, HeaderValue.truthy]

/-! ## The auth gate (C3) -/

/-- C3, as stated, fails: a `token` header that is present but empty does not
verify, yet the gate answers 401 and not 403. -/
theorem auth_empty_token_is_401 :
    (Request.mk (some (.text "")) "1" (.object [])).headers_token = some (.text "") ∧
    Jwt.verify demoEnv (.text "") (JWT_secret demoEnv) = .error "jwt must be provided" ∧
    (app demoEnv .getTodos (Request.mk (some (.text "")) "1" (.object [])) ⟨⟨[], []⟩, []⟩).1
      = ⟨401, .message "No token provided"⟩ ∧
    (app demoEnv .getTodos (Request.mk (some (.text "")) "1" (.object [])) ⟨⟨[], []⟩, []⟩).1.status
      ≠ 403 := by
  refine ⟨rfl, rfl, ?_, ?_⟩ <;> simp [app, auth, HeaderValue.truthy]

/-- C3, amended: on each of the four task routes, a request whose `token`
header is absent or empty is answered 401, and one whose header is non-empty
but fails verification is answered 403; in both cases the handler is not run:
the store and the list of storage operations stay as they were. -/
theorem auth_gate_rejects (env : Env) (route : Route) (req : Request) (w : World)
    (hr : route.isTaskRoute = true) :
    ((req.headers_token = none ∨ req.headers_token = some (.text "")) →
      app env route req w = (⟨401, .message "No token provided"⟩, w)) ∧
    (∀ token, req.headers_token = some token → token ≠ .text "" →
      (∃ e, Jwt.verify env token (JWT_secret env) = .error e) →
      app env route req w = (⟨403, .message "Invalid token"⟩, w)) := by
  constructor
  · intro h
    rcases h with h | h <;> cases route <;>
      simp_all [app, auth, HeaderValue.truthy, Route.isTaskRoute]
  · intro token ht hne ⟨e, he⟩
    have htruthy : token.truthy = true := by
      cases token with
      | text s =>
        have : s ≠ "" := fun hs => hne (by rw [hs])
        simpa [HeaderValue.truthy] using this
      | jwt t => rfl
    cases route <;> simp_all [app, auth, Route.isTaskRoute]

theorem auth_gate_rejects_witness :
    (app demoEnv .deleteTodo ⟨none, "1", .object []⟩ ⟨⟨[], [⟨"1", "u", none, false⟩]⟩, []⟩
        = (⟨401, .message "No token provided"⟩, ⟨⟨[], [⟨"1", "u", none, false⟩]⟩, []⟩)) ∧
    (app demoEnv .deleteTodo ⟨some (.text "x.y.z"), "1", .object []⟩
        ⟨⟨[], [⟨"1", "u", none, false⟩]⟩, []⟩
        = (⟨403, .message "Invalid token"⟩, ⟨⟨[], [⟨"1", "u", none, false⟩]⟩, []⟩)) :=
  ⟨(auth_gate_rejects demoEnv .deleteTodo ⟨none, "1", .object []⟩ _ rfl).1 (Or.inl rfl),
   (auth_gate_rejects demoEnv .deleteTodo ⟨some (.text "x.y.z"), "1", .object []⟩ _ rfl).2
      (.text "x.y.z") rfl (by decide) ⟨"jwt malformed", rfl⟩⟩

/-! ## Update: input check (C7) -/

/-- C7: for an authenticated owner, any task id and any body whose `completed`
field is absent or is not a boolean, `PUT /update-todo/:id` answers 400 and
the world is untouched: no storage operation is issued, nothing is written. -/
theorem update_rejects_non_boolean (env : Env) (req : Request) (w : World) (userId : String)
    (ha : Authenticated env req userId)
    (hc : ∀ b, req.body.prop "completed" ≠ some (.bool b)) :
    app env .putUpdateTodo req w
      = (⟨400, .message "Invalid input. Todo ID and completed status required"⟩, w) := by
  simp only [app, auth_of_authenticated ha, updateTodo]
  split
  · next completed h1 h2 => exact absurd h2 (hc completed)
  · rfl

theorem update_rejects_non_boolean_witness :
    app demoEnv .putUpdateTodo
        ⟨some (demoToken "u"), "1", .object [("completed", .str "true")]⟩
        ⟨⟨[], [⟨"1", "u", none, false⟩]⟩, []⟩
      = (⟨400, .message "Invalid input. Todo ID and completed status required"⟩,
          ⟨⟨[], [⟨"1", "u", none, false⟩]⟩, []⟩) :=
  update_rejects_non_boolean demoEnv _ _ "u" (demoToken_authenticated "u" "1" _)
    (by intro b; simp [ReqBody.prop, List.lookup])

/-! ## Ownership: a foreign task looks like no task (C1) -/

theorem setCompletedFirst_none (p : Todo → Bool) (c : Bool) (l : List Todo)
    (h : ∀ t ∈ l, p t = false) : setCompletedFirst p c l = (none, l) := by
  induction l with
  | nil => rfl
  | cons t ts ih =>
    have ht : p t = false := h t (List.mem_cons_self _ _)
    have hts := ih (fun x hx => h x (List.mem_cons_of_mem _ hx))
    simp [setCompletedFirst, ht, hts]

theorem no_match_of_foreign (db : Db) (hu : db.uniqueTodoIds) (T : Todo) (V : String)
    (hT : T ∈ db.todos) (hVU : T.userId ≠ V) :
    ∀ t ∈ db.todos, (t._id == T._id && t.userId == V) = false := by
  intro t ht
  by_cases hid : t._id = T._id
  · have : t = T := List.inj_on_of_nodup_map hu ht hT hid
    subst this
    simp [hVU]
  · simp [hid]

theorem no_match_of_absent (db : Db) (absent V : String)
    (h : ∀ t ∈ db.todos, t._id ≠ absent) :
    ∀ t ∈ db.todos, (t._id == absent && t.userId == V) = false := by
  intro t ht
  simp [h t ht]

/-- C1: in a store whose task ids are pairwise distinct, when no storage
fault occurs, for a task `T` of another owner and a valid token of `V`:
`DELETE /delete-todo/T.id` and `PUT /update-todo/T.id` with a boolean
`completed` answer 404 with the very response they give for an id that no
task carries, and the store is unchanged, `T` still in it. -/
theorem foreign_task_indistinguishable (env : Env) (hf : Faultless env) (w : World)
    (hu : w.db.uniqueTodoIds) (T : Todo) (V absent : String) (c : Bool)
    (token : HeaderValue) (bodyD bodyU : ReqBody)
    (hT : T ∈ w.db.todos) (hVU : T.userId ≠ V)
    (habs : ∀ t ∈ w.db.todos, t._id ≠ absent)
    (hid : T._id ≠ "") (hidAbs : absent ≠ "")
    (hv : ∃ data, Jwt.verify env token (JWT_secret env) = .ok data ∧ data.id = V)
    (hb : bodyU.prop "completed" = some (.bool c)) :
    ((app env .deleteTodo ⟨some token, T._id, bodyD⟩ w).1
        = ⟨404, .message "Todo not found or not authorized to delete"⟩ ∧
      (app env .deleteTodo ⟨some token, T._id, bodyD⟩ w).1
        = (app env .deleteTodo ⟨some token, absent, bodyD⟩ w).1 ∧
      (app env .deleteTodo ⟨some token, T._id, bodyD⟩ w).2.db = w.db) ∧
    ((app env .putUpdateTodo ⟨some token, T._id, bodyU⟩ w).1
        = ⟨404, .message "Todo not found or not authorized to update"⟩ ∧
      (app env .putUpdateTodo ⟨some token, T._id, bodyU⟩ w).1
        = (app env .putUpdateTodo ⟨some token, absent, bodyU⟩ w).1 ∧
      (app env .putUpdateTodo ⟨some token, T._id, bodyU⟩ w).2.db = w.db) ∧
    T ∈ w.db.todos := by
  obtain ⟨data, hver, hdata⟩ := hv
  have ha : ∀ id body, Authenticated env ⟨some token, id, body⟩ V :=
    fun id body => ⟨token, data, rfl, hver, hdata⟩
  have h1 := no_match_of_foreign w.db hu T V hT hVU
  have h2 := no_match_of_absent w.db absent V habs
  have f1 : w.db.todos.find? (fun t => t._id == T._id && t.userId == V) = none :=
    List.find?_eq_none.mpr (fun t ht => by simp [h1 t ht])
  have f2 : w.db.todos.find? (fun t => t._id == absent && t.userId == V) = none :=
    List.find?_eq_none.mpr (fun t ht => by simp [h2 t ht])
  have s1 := setCompletedFirst_none (fun t => t._id == T._id && t.userId == V) c w.db.todos h1
  have s2 := setCompletedFirst_none (fun t => t._id == absent && t.userId == V) c w.db.todos h2
  have e1 : (T._id == "") = false := by simp [hid]
  have e2 : (absent == "") = false := by simp [hidAbs]
  refine ⟨⟨?_, ?_, ?_⟩, ⟨?_, ?_, ?_⟩, hT⟩
  all_goals
    simp [app, auth_of_authenticated (ha _ _), deleteTodo, updateTodo, TodoModel.findOne,
      TodoModel.findOneAndUpdate, dbStep, hf _, f1, f2, s1, s2, hb, e1, e2]

theorem foreign_task_indistinguishable_witness :
    ((app demoEnv .deleteTodo ⟨some (demoToken "v"), "1", .object []⟩ demoWorld).1
        = ⟨404, .message "Todo not found or not authorized to delete"⟩ ∧
      (app demoEnv .deleteTodo ⟨some (demoToken "v"), "1", .object []⟩ demoWorld).1
        = (app demoEnv .deleteTodo ⟨some (demoToken "v"), "9", .object []⟩ demoWorld).1 ∧
      (app demoEnv .deleteTodo ⟨some (demoToken "v"), "1", .object []⟩ demoWorld).2.db
        = demoWorld.db) ∧
    ((app demoEnv .putUpdateTodo
          ⟨some (demoToken "v"), "1", .object [("completed", .bool true)]⟩ demoWorld).1
        = ⟨404, .message "Todo not found or not authorized to update"⟩ ∧
      (app demoEnv .putUpdateTodo
          ⟨some (demoToken "v"), "1", .object [("completed", .bool true)]⟩ demoWorld).1
        = (app demoEnv .putUpdateTodo
          ⟨some (demoToken "v"), "9", .object [("completed", .bool true)]⟩ demoWorld).1 ∧
      (app demoEnv .putUpdateTodo
          ⟨some (demoToken "v"), "1", .object [("completed", .bool true)]⟩ demoWorld).2.db
        = demoWorld.db) ∧
    (⟨"1", "u", some (.str "t1"), false⟩ : Todo) ∈ demoWorld.db.todos :=
  foreign_task_indistinguishable demoEnv demoEnv_faultless demoWorld
    (by simp [Db.uniqueTodoIds, demoWorld]) ⟨"1", "u", some (.str "t1"), false⟩ "v" "9" true
    (demoToken "v") (.object []) (.object [("completed", .bool true)])
    (by simp [demoWorld]) (by decide) (by simp [demoWorld]) (by decide) (by decide)
    ⟨⟨"v", 1000, 1000 + expiresIn24h⟩,
      by simp [demoToken, Jwt.verify, Jwt.sign, demoEnv, expiresIn24h], rfl⟩
    (by simp [ReqBody.prop, List.lookup])

/-! ## Listing (C2) -/

theorem getTodos_faultless (env : Env) (hf : Faultless env) (userId : String) (req : Request)
    (w : World) :
    getTodos env userId req w =
      (if (w.db.todos.filter (fun t => t.userId == userId)).length == 0
        then ⟨404, .message "No todos found"⟩
        else ⟨200, .todos (w.db.todos.filter (fun t => t.userId == userId))⟩,
       ⟨w.db, w.log ++ [.todoFind userId]⟩) := by
  simp only [getTodos, TodoModel.find, dbStep, hf _]
  split <;> rfl

/-- C2: when no storage fault occurs, `GET /todos` by an authenticated owner
`U` answers 200 with exactly the tasks whose `userId` is `U` if there is one,
answers 404 if and only if `U` owns no task, and leaves the store unchanged. -/
theorem list_returns_own_tasks (env : Env) (hf : Faultless env) (req : Request) (w : World)
    (U : String) (ha : Authenticated env req U) :
    ((∃ t ∈ w.db.todos, t.userId = U) →
      ∃ ts, (app env .getTodos req w).1 = ⟨200, .todos ts⟩ ∧
        ts = w.db.todos.filter (fun t => t.userId == U) ∧
        ∀ t, t ∈ ts ↔ (t ∈ w.db.todos ∧ t.userId = U)) ∧
    ((app env .getTodos req w).1.status = 404 ↔ ¬ ∃ t ∈ w.db.todos, t.userId = U) ∧
    ((¬ ∃ t ∈ w.db.todos, t.userId = U) →
      (app env .getTodos req w).1 = ⟨404, .message "No todos found"⟩) ∧
    (app env .getTodos req w).2.db = w.db := by
  have happ : app env .getTodos req w = getTodos env U req w := by
    simp only [app, auth_of_authenticated ha]
  rw [happ, getTodos_faultless env hf]
  have hempty : (w.db.todos.filter (fun t => t.userId == U)) = [] ↔
      ¬ ∃ t ∈ w.db.todos, t.userId = U := by
    simp [List.filter_eq_nil_iff]
  by_cases h : ∃ t ∈ w.db.todos, t.userId = U
  · have hne : (w.db.todos.filter (fun t => t.userId == U)) ≠ [] := fun hc => hempty.mp hc h
    have hlen : ((w.db.todos.filter (fun t => t.userId == U)).length == 0) = false := by
      simpa using hne
    simp only [hlen]
    refine ⟨fun _ => ⟨_, rfl, rfl, ?_⟩, ?_, fun hn => absurd h hn, trivial⟩
    · intro t
      simp [List.mem_filter]
    · simp [h]
  · have he := hempty.mpr h
    simp [he, h]

theorem list_returns_own_tasks_witness :
    ((∃ t ∈ demoWorld.db.todos, t.userId = "u") →
      ∃ ts, (app demoEnv .getTodos ⟨some (demoToken "u"), "", .object []⟩ demoWorld).1
          = ⟨200, .todos ts⟩ ∧
        ts = demoWorld.db.todos.filter (fun t => t.userId == "u") ∧
        ∀ t, t ∈ ts ↔ (t ∈ demoWorld.db.todos ∧ t.userId = "u")) ∧
    ((app demoEnv .getTodos ⟨some (demoToken "u"), "", .object []⟩ demoWorld).1.status = 404
      ↔ ¬ ∃ t ∈ demoWorld.db.todos, t.userId = "u") ∧
    ((¬ ∃ t ∈ demoWorld.db.todos, t.userId = "u") →
      (app demoEnv .getTodos ⟨some (demoToken "u"), "", .object []⟩ demoWorld).1
        = ⟨404, .message "No todos found"⟩) ∧
    (app demoEnv .getTodos ⟨some (demoToken "u"), "", .object []⟩ demoWorld).2.db
      = demoWorld.db :=
  list_returns_own_tasks demoEnv demoEnv_faultless _ demoWorld "u"
    (demoToken_authenticated "u" "" _)

/-! ## Signup: email uniqueness (C4) -/

theorem signup_users (env : Env) (req : Request) (w : World) :
    (signup env req w).2.db.todos = w.db.todos ∧
    ((signup env req w).2.db.users = w.db.users ∨
      ∃ u, (signup env req w).2.db.users = w.db.users ++ [u] ∧
        ∀ x ∈ w.db.users, x.email ≠ u.email) := by
  unfold signup
  cases hp : schema.safeParse env req.body with
  | error issues => simp
  | ok data =>
    simp only [UserModel.findOne, dbStep]
    cases hf : env.fault (.userFindOne (some (.str data.email))) with
    | some e => simp
    | none =>
      cases hfind : w.db.users.find? (matchesEmail env (some (.str data.email))) with
      | some u => simp [hfind]
      | none =>
        simp only [hfind, UserModel.create, dbStep]
        cases hc : env.fault (.userCreate data.userName data.email (env.bcryptHash data.password)) with
        | some e => simp
        | none =>
          refine ⟨rfl, Or.inr ⟨_, rfl, ?_⟩⟩
          intro x hx
          have := List.find?_eq_none.mp hfind x hx
          simpa [matchesEmail] using this

theorem signup_keeps_uniqueEmails (env : Env) (req : Request) (w : World)
    (h : w.db.uniqueEmails) : (signup env req w).2.db.uniqueEmails := by
  rcases (signup_users env req w).2 with h1 | ⟨u, h1, h2⟩
  · simpa [Db.uniqueEmails, h1] using h
  · unfold Db.uniqueEmails at h ⊢
    rw [h1, List.map_append, List.nodup_append]
    refine ⟨h, by simp, ?_⟩
    intro a ha hb
    simp only [List.map_cons, List.map_nil, List.mem_singleton] at hb
    obtain ⟨x, hx, hxe⟩ := List.mem_map.mp ha
    exact h2 x hx (hxe.trans hb)

theorem signup_existing_email (env : Env) (hf : Faultless env) (w : World) (req : Request)
    (data : SignupData) (hp : schema.safeParse env req.body = .ok data)
    (hex : ∃ u ∈ w.db.users, u.email = data.email) :
    signup env req w = (⟨400, .message "Email already exists"⟩,
      ⟨w.db, w.log ++ [.userFindOne (some (.str data.email))]⟩) := by
  obtain ⟨u, hu, hue⟩ := hex
  have hsome : (w.db.users.find? (matchesEmail env (some (.str data.email)))).isSome := by
    rw [List.find?_isSome]
    exact ⟨u, hu, by simp [matchesEmail, hue]⟩
  obtain ⟨v, hv⟩ := Option.isSome_iff_exists.mp hsome
  simp [signup, hp, UserModel.findOne, dbStep, hf _, hv]

/-- C4: when no storage fault occurs, `POST /signup` with a schema-valid
payload whose email is the email of a user in the store answers 400
"Email already exists" and leaves the store unchanged; and whatever happens
(faults included), a store whose emails are pairwise distinct keeps them
pairwise distinct through every sequence of signups. -/
theorem signup_duplicate_email_rejected :
    (∀ (env : Env) (w : World) (req : Request) (data : SignupData),
      Faultless env → schema.safeParse env req.body = .ok data →
      (∃ u ∈ w.db.users, u.email = data.email) →
      (app env .postSignup req w).1 = ⟨400, .message "Email already exists"⟩ ∧
      (app env .postSignup req w).2.db = w.db) ∧
    (∀ (w : World) (reqs : List (Env × Request)),
      w.db.uniqueEmails → (signupAll reqs w).db.uniqueEmails) := by
  constructor
  · intro env w req data hf hp hex
    simp [app, signup_existing_email env hf w req data hp hex]
  · intro w reqs
    induction reqs generalizing w with
    | nil => exact id
    | cons r rest ih =>
      intro h
      obtain ⟨env, req⟩ := r
      exact ih _ (signup_keeps_uniqueEmails env req w h)

theorem signup_duplicate_email_rejected_witness :
    ((app demoEnv .postSignup demoSignupDuplicate demoWorld).1
        = ⟨400, .message "Email already exists"⟩ ∧
      (app demoEnv .postSignup demoSignupDuplicate demoWorld).2.db = demoWorld.db) ∧
    (signupAll [(demoEnv, demoSignupFresh), (demoEnv, demoSignupDuplicate),
      (demoEnv, demoSignupFresh)] demoWorld).db.uniqueEmails :=
  ⟨signup_duplicate_email_rejected.1 demoEnv demoWorld demoSignupDuplicate
      ⟨"bob", "a@x.com", "hunter2"⟩ demoEnv_faultless (by rfl)
      ⟨⟨"u", "ann", "a@x.com", "$secret"⟩, by simp [demoWorld], rfl⟩,
   signup_duplicate_email_rejected.2 demoWorld _ (by simp [Db.uniqueEmails, demoWorld])⟩

/-! ## Token round trip (C5) -/

theorem signin_success_token (env : Env) (req : Request) (w : World) (m : String) (b : Bool)
    (token : Jwt) (h : (signin env req w).1 = ⟨200, .signinSuccess b m token⟩) :
    ∃ u ∈ w.db.users, token = Jwt.sign env u._id (JWT_secret env) expiresIn24h := by
  unfold signin at h
  simp only [UserModel.findOne, dbStep] at h
  cases hf : env.fault (.userFindOne (req.body.prop "email")) with
  | some e => simp [hf] at h
  | none =>
    cases hfind : w.db.users.find? (matchesEmail env (req.body.prop "email")) with
    | none => simp [hf, hfind] at h
    | some u =>
      simp only [hf, hfind] at h
      cases hc : bcrypt.compare env (req.body.prop "password") u.password with
      | error e => simp [hc] at h
      | ok r =>
        cases r with
        | false => simp [hc] at h
        | true =>
          simp only [hc] at h
          refine ⟨u, List.mem_of_find?_eq_some hfind, ?_⟩
          simp only [Response.mk.injEq, Body.signinSuccess.injEq] at h
          exact h.2.2.2.symm

theorem auth_issued_token (envIssue envCheck : Env) (U : String) (req : Request)
    (next : String → Request → World → Outcome) (w : World)
    (hs : envCheck.JWT_SECRET = envIssue.JWT_SECRET) (hh : envCheck.hmac = envIssue.hmac)
    (hreq : req.headers_token
      = some (.jwt (Jwt.sign envIssue U (JWT_secret envIssue) expiresIn24h))) :
    (envCheck.now < envIssue.now + 24 * 60 * 60 → auth envCheck next req w = next U req w) ∧
    (envIssue.now + 24 * 60 * 60 ≤ envCheck.now →
      auth envCheck next req w = (⟨403, .message "Invalid token"⟩, w)) := by
  have hsec : JWT_secret envCheck = JWT_secret envIssue := by simp [JWT_secret, hs]
  constructor
  · intro hlt
    have : ¬ (envIssue.now + 86400 ≤ envCheck.now) := by omega
    simp [auth, hreq, HeaderValue.truthy, Jwt.verify, Jwt.sign, hsec, hh, expiresIn24h, this]
  · intro hge
    have : envIssue.now + 86400 ≤ envCheck.now := by omega
    simp [auth, hreq, HeaderValue.truthy, Jwt.verify, Jwt.sign, hsec, hh, expiresIn24h, this]

/-- C5: the token that a successful `POST /signin` issues at time `t` belongs
to a user `U` of the store, and the auth gate, under the same secret and
signing function, given that token unmodified at a time `t'` with
`t ≤ t' < t + 24h` runs the handler with `req.userId = U._id`, and at any
time `t' ≥ t + 24h` answers 403. -/
theorem signin_token_round_trip (envIssue : Env) (reqSignin : Request) (w0 : World)
    (m : String) (token : Jwt)
    (hsignin : (app envIssue .postSignin reqSignin w0).1
      = ⟨200, .signinSuccess true m token⟩) :
    ∃ U ∈ w0.db.users, token.payload.id = U._id ∧
      ∀ (envCheck : Env) (req : Request) (next : String → Request → World → Outcome)
        (w : World),
        envCheck.JWT_SECRET = envIssue.JWT_SECRET → envCheck.hmac = envIssue.hmac →
        req.headers_token = some (.jwt token) →
        (envIssue.now ≤ envCheck.now → envCheck.now < envIssue.now + 24 * 60 * 60 →
          auth envCheck next req w = next U._id req w) ∧
        (envIssue.now + 24 * 60 * 60 ≤ envCheck.now →
          auth envCheck next req w = (⟨403, .message "Invalid token"⟩, w)) := by
  obtain ⟨U, hU, htok⟩ := signin_success_token envIssue reqSignin w0 m true token hsignin
  refine ⟨U, hU, by rw [htok]; rfl, ?_⟩
  intro envCheck req next w hs hh hreq
  rw [htok] at hreq
  have h := auth_issued_token envIssue envCheck U._id req next w hs hh hreq
  exact ⟨fun _ hlt => h.1 hlt, h.2⟩

theorem signin_token_round_trip_witness :
    ∃ U ∈ demoWorld.db.users, demoJwt.payload.id = U._id ∧
      auth (demoEnvAt 4600) (getTodos (demoEnvAt 4600)) ⟨some (.jwt demoJwt), "", .object []⟩
          demoWorld
        = getTodos (demoEnvAt 4600) U._id ⟨some (.jwt demoJwt), "", .object []⟩ demoWorld ∧
      auth (demoEnvAt 87400) (getTodos (demoEnvAt 87400))
          ⟨some (.jwt demoJwt), "", .object []⟩ demoWorld
        = (⟨403, .message "Invalid token"⟩, demoWorld) :=
  match signin_token_round_trip demoEnv demoSignin demoWorld "Successfully signed in" demoJwt
      (by decide) with
  | ⟨U, hU, hid, h⟩ =>
    ⟨U, hU, hid,
      (h (demoEnvAt 4600) ⟨some (.jwt demoJwt), "", .object []⟩ (getTodos (demoEnvAt 4600))
        demoWorld rfl rfl rfl).1 (by decide) (by decide),
      (h (demoEnvAt 87400) ⟨some (.jwt demoJwt), "", .object []⟩ (getTodos (demoEnvAt 87400))
        demoWorld rfl rfl rfl).2 (by decide)⟩

/-! ## Signin (C6) -/

theorem signin_faultless (env : Env) (hf : Faultless env) (w : World) (req : Request)
    (e p : String) (he : req.body.prop "email" = some (.str e))
    (hp : req.body.prop "password" = some (.str p)) :
    signin env req w =
      ((match w.db.users.find? (fun u => u.email == e) with
        | none => ⟨401, .signinFailure false "Invalid email or password"⟩
        | some u =>
          if env.bcryptCompare p u.password then
            ⟨200, .signinSuccess true "Successfully signed in"
              (Jwt.sign env u._id (JWT_secret env) expiresIn24h)⟩
          else ⟨401, .signinFailure false "Invalid email or password"⟩),
       ⟨w.db, w.log ++ [.userFindOne (some (.str e))]⟩) := by
  have hm : matchesEmail env (some (.str e)) = fun u => u.email == e := by
    funext u
    rfl
  simp only [signin, he, hp, UserModel.findOne, dbStep, hf _, hm]
  cases hfind : w.db.users.find? (fun u => u.email == e) with
  | none => rfl
  | some u =>
    simp only [bcrypt.compare]
    cases hc : env.bcryptCompare p u.password <;> simp

/-- C6: in a store whose emails are pairwise distinct, when no storage fault
occurs, `POST /signin` with string `email` and `password` answers 200 with
`success = true` and a token exactly when a user with that email exists and
the password verifies against that user's stored hash; otherwise it answers
401 with one fixed body that has no token; the store is unchanged. -/
theorem signin_iff_credentials (env : Env) (hf : Faultless env) (w : World) (req : Request)
    (e p : String) (hu : w.db.uniqueEmails)
    (he : req.body.prop "email" = some (.str e))
    (hp : req.body.prop "password" = some (.str p)) :
    ((∃ u ∈ w.db.users, u.email = e ∧ env.bcryptCompare p u.password = true) →
      ∃ u ∈ w.db.users, u.email = e ∧
        (app env .postSignin req w).1 = ⟨200, .signinSuccess true "Successfully signed in"
          (Jwt.sign env u._id (JWT_secret env) expiresIn24h)⟩) ∧
    ((¬ ∃ u ∈ w.db.users, u.email = e ∧ env.bcryptCompare p u.password = true) →
      (app env .postSignin req w).1
        = ⟨401, .signinFailure false "Invalid email or password"⟩) ∧
    ((app env .postSignin req w).1.status = 200 ↔
      ∃ u ∈ w.db.users, u.email = e ∧ env.bcryptCompare p u.password = true) ∧
    (app env .postSignin req w).2.db = w.db := by
  have happ : app env .postSignin req w = signin env req w := rfl
  rw [happ, signin_faultless env hf w req e p he hp]
  cases hfind : w.db.users.find? (fun u => u.email == e) with
  | none =>
    have hno : ¬ ∃ u ∈ w.db.users, u.email = e ∧ env.bcryptCompare p u.password = true := by
      rintro ⟨u, hmem, hue, _⟩
      have := List.find?_eq_none.mp hfind u hmem
      simp [hue] at this
    simp [hno]
  | some u =>
    have hmem : u ∈ w.db.users := List.mem_of_find?_eq_some hfind
    have hue : u.email = e := by
      have := List.find?_some hfind
      simpa using this
    cases hc : env.bcryptCompare p u.password with
    | true =>
      have hyes : ∃ u ∈ w.db.users, u.email = e ∧ env.bcryptCompare p u.password = true :=
        ⟨u, hmem, hue, hc⟩
      refine ⟨fun _ => ⟨u, hmem, hue, by simp [hc]⟩, fun hn => absurd hyes hn, ?_, rfl⟩
      simp [hc, hyes]
    | false =>
      have hno : ¬ ∃ u ∈ w.db.users, u.email = e ∧ env.bcryptCompare p u.password = true := by
        rintro ⟨v, hv, hve, hvc⟩
        have : v = u := List.inj_on_of_nodup_map hu hv hmem (hve.trans hue.symm)
        rw [this, hc] at hvc
        exact Bool.noConfusion hvc
      simp [hno, hc]

theorem signin_iff_credentials_witness :
    ((∃ u ∈ demoWorld.db.users,
        u.email = "a@x.com" ∧ demoEnv.bcryptCompare "secret" u.password = true) →
      ∃ u ∈ demoWorld.db.users, u.email = "a@x.com" ∧
        (app demoEnv .postSignin demoSignin demoWorld).1
          = ⟨200, .signinSuccess true "Successfully signed in"
              (Jwt.sign demoEnv u._id (JWT_secret demoEnv) expiresIn24h)⟩) ∧
    ((¬ ∃ u ∈ demoWorld.db.users,
        u.email = "a@x.com" ∧ demoEnv.bcryptCompare "secret" u.password = true) →
      (app demoEnv .postSignin demoSignin demoWorld).1
        = ⟨401, .signinFailure false "Invalid email or password"⟩) ∧
    ((app demoEnv .postSignin demoSignin demoWorld).1.status = 200 ↔
      ∃ u ∈ demoWorld.db.users,
        u.email = "a@x.com" ∧ demoEnv.bcryptCompare "secret" u.password = true) ∧
    (app demoEnv .postSignin demoSignin demoWorld).2.db = demoWorld.db :=
  signin_iff_credentials demoEnv demoEnv_faultless demoWorld demoSignin "a@x.com" "secret"
    (by simp [Db.uniqueEmails, demoWorld]) (by decide) (by decide)

/-! ## Create, list, complete, list (C8) -/

theorem freshId_length (ids : List String) : ∀ s ∈ ids, s.length < (freshId ids).length := by
  induction ids with
  | nil => intro s hs; cases hs
  | cons a l ih =>
    intro s hs
    have hcons : freshId (a :: l) = a ++ freshId l := rfl
    rw [hcons, String.length_append]
    rcases List.mem_cons.mp hs with h | h
    · subst h
      have : 0 < (freshId l).length := by
        cases l with
        | nil => decide
        | cons b l2 => exact Nat.lt_of_le_of_lt (Nat.zero_le _) (ih b (List.mem_cons_self _ _))
      omega
    · have := ih s h
      omega

theorem freshId_not_mem (ids : List String) : freshId ids ∉ ids :=
  fun h => Nat.lt_irrefl _ (freshId_length ids _ h)

theorem freshId_ne_empty (ids : List String) : freshId ids ≠ "" := by
  intro h
  have hlen : (freshId ids).length = 0 := by rw [h]; rfl
  induction ids with
  | nil => exact absurd hlen (by decide)
  | cons a l _ =>
    have := freshId_length (a :: l) a (List.mem_cons_self _ _)
    omega

theorem setCompletedFirst_last (p : Todo → Bool) (c : Bool) (l : List Todo) (t : Todo)
    (h : ∀ x ∈ l, p x = false) (ht : p t = true) :
    setCompletedFirst p c (l ++ [t])
      = (some ⟨t._id, t.userId, t.title, c⟩, l ++ [⟨t._id, t.userId, t.title, c⟩]) := by
  induction l with
  | nil => simp [setCompletedFirst, ht]
  | cons a l ih =>
    have ha : p a = false := h a (List.mem_cons_self _ _)
    have hl := ih (fun x hx => h x (List.mem_cons_of_mem _ hx))
    simp [setCompletedFirst, ha, hl]

theorem postTodo_faultless (env : Env) (hf : Faultless env) (userId : String) (req : Request)
    (w : World) :
    postTodo env userId req w =
      (⟨201, .todo ⟨freshId (w.db.todos.map (fun t => t._id)), userId,
          req.body.prop "title", false⟩⟩,
       ⟨⟨w.db.users, w.db.todos ++ [⟨freshId (w.db.todos.map (fun t => t._id)), userId,
          req.body.prop "title", false⟩]⟩,
        w.log ++ [.todoCreate userId (req.body.prop "title")]⟩) := by
  simp [postTodo, TodoModel.create, dbStep, hf _]

theorem getTodos_contains (env : Env) (hf : Faultless env) (req : Request) (w : World)
    (t : Todo) (ht : t ∈ w.db.todos) :
    ∃ ts, (getTodos env t.userId req w).1 = ⟨200, .todos ts⟩ ∧ t ∈ ts ∧
      ∀ x ∈ w.db.todos, x.userId = t.userId → x ∈ ts := by
  rw [getTodos_faultless env hf]
  have hmem : t ∈ w.db.todos.filter (fun x => x.userId == t.userId) := by
    simp [List.mem_filter, ht]
  have hlen : ((w.db.todos.filter (fun x => x.userId == t.userId)).length == 0) = false := by
    have : (w.db.todos.filter (fun x => x.userId == t.userId)) ≠ [] :=
      List.ne_nil_of_mem hmem
    simpa using this
  refine ⟨_, by simp only [hlen]; rfl, hmem, ?_⟩
  intro x hx hxu
  simp [List.mem_filter, hx, hxu]

/-- C8: when no storage fault occurs and `U` is authenticated on each request:
`POST /todo` with title `s` creates a task `t` of `U` with that title and
`completed = false`, appended to the store; `GET /todos` by `U` then
contains `t`; a following `PUT /update-todo/t.id` with `completed = true`
answers with the same id and title and `completed = true` and changes no
other task; and `GET /todos` by `U` then contains the completed task and
every task `U` had before. -/
theorem create_list_complete_list (e1 e2 e3 e4 : Env) (hf1 : Faultless e1)
    (hf2 : Faultless e2) (hf3 : Faultless e3) (hf4 : Faultless e4) (w : World) (U s : String)
    (r1 r2 r4 : Request)
    (ha1 : Authenticated e1 r1 U) (ha2 : Authenticated e2 r2 U) (ha4 : Authenticated e4 r4 U)
    (htitle : r1.body.prop "title" = some (.str s)) :
    ∃ t : Todo,
      (app e1 .postTodo r1 w).1 = ⟨201, .todo t⟩ ∧
      t.userId = U ∧ t.title = some (.str s) ∧ t.completed = false ∧
      (app e1 .postTodo r1 w).2.db = ⟨w.db.users, w.db.todos ++ [t]⟩ ∧
      (∃ ts, (app e2 .getTodos r2 (app e1 .postTodo r1 w).2).1 = ⟨200, .todos ts⟩ ∧ t ∈ ts) ∧
      ∀ r3 : Request, Authenticated e3 r3 U → r3.params_id = t._id →
        r3.body.prop "completed" = some (.bool true) →
        (app e3 .putUpdateTodo r3 (app e1 .postTodo r1 w).2).1
          = ⟨200, .todo ⟨t._id, U, some (.str s), true⟩⟩ ∧
        (app e3 .putUpdateTodo r3 (app e1 .postTodo r1 w).2).2.db
          = ⟨w.db.users, w.db.todos ++ [⟨t._id, U, some (.str s), true⟩]⟩ ∧
        ∃ ts, (app e4 .getTodos r4 (app e3 .putUpdateTodo r3 (app e1 .postTodo r1 w).2).2).1
            = ⟨200, .todos ts⟩ ∧
          (⟨t._id, U, some (.str s), true⟩ : Todo) ∈ ts ∧
          ∀ x ∈ w.db.todos, x.userId = U → x ∈ ts := by
  have h1 : app e1 .postTodo r1 w = postTodo e1 U r1 w := by
    simp only [app, auth_of_authenticated ha1]
  rw [h1, postTodo_faultless e1 hf1, htitle]
  refine ⟨⟨freshId (w.db.todos.map (fun t => t._id)), U, some (.str s), false⟩,
    rfl, rfl, rfl, rfl, rfl, ?_, ?_⟩
  · have h2 : ∀ w2, app e2 .getTodos r2 w2 = getTodos e2 U r2 w2 := by
      intro w2
      simp only [app, auth_of_authenticated ha2]
    rw [h2]
    obtain ⟨ts, hts, hmem, _⟩ := getTodos_contains e2 hf2 r2
      ⟨⟨w.db.users, w.db.todos ++ [⟨freshId (w.db.todos.map (fun t => t._id)), U,
        some (.str s), false⟩]⟩, w.log ++ [.todoCreate U (some (.str s))]⟩
      ⟨freshId (w.db.todos.map (fun t => t._id)), U, some (.str s), false⟩ (by simp)
    exact ⟨ts, hts, hmem⟩
  · intro r3 ha3 hid hc
    have h3 : ∀ w3, app e3 .putUpdateTodo r3 w3 = updateTodo e3 U r3 w3 := by
      intro w3
      simp only [app, auth_of_authenticated ha3]
    have hid2 : r3.params_id = freshId (w.db.todos.map (fun t => t._id)) := hid
    have hne : (freshId (w.db.todos.map (fun t => t._id)) == "") = false := by
      simpa using freshId_ne_empty (w.db.todos.map (fun t => t._id))
    have hold : ∀ x ∈ w.db.todos,
        (x._id == freshId (w.db.todos.map (fun t => t._id)) && x.userId == U) = false := by
      intro x hx
      have : x._id ≠ freshId (w.db.todos.map (fun t => t._id)) := by
        intro hxe
        exact freshId_not_mem (w.db.todos.map (fun t => t._id))
          (hxe ▸ List.mem_map_of_mem (fun t => t._id) hx)
      simp [this]
    have hset := setCompletedFirst_last
      (fun x => x._id == freshId (w.db.todos.map (fun t => t._id)) && x.userId == U) true
      w.db.todos ⟨freshId (w.db.todos.map (fun t => t._id)), U, some (.str s), false⟩
      hold (by simp)
    dsimp only at hset
    have hupd : updateTodo e3 U r3
        ⟨⟨w.db.users, w.db.todos ++ [⟨freshId (w.db.todos.map (fun t => t._id)), U,
          some (.str s), false⟩]⟩, w.log ++ [.todoCreate U (some (.str s))]⟩
        = (⟨200, .todo ⟨freshId (w.db.todos.map (fun t => t._id)), U, some (.str s), true⟩⟩,
           ⟨⟨w.db.users, w.db.todos ++ [⟨freshId (w.db.todos.map (fun t => t._id)), U,
              some (.str s), true⟩]⟩,
            w.log ++ [.todoCreate U (some (.str s))] ++
              [.todoFindOneAndUpdate (freshId (w.db.todos.map (fun t => t._id))) U true]⟩) := by
      simp only [updateTodo, hid2, hne, hc, TodoModel.findOneAndUpdate, dbStep, hf3 _, hset]
    rw [h3, hupd]
    refine ⟨rfl, rfl, ?_⟩
    have h4 : ∀ w4, app e4 .getTodos r4 w4 = getTodos e4 U r4 w4 := by
      intro w4
      simp only [app, auth_of_authenticated ha4]
    rw [h4]
    obtain ⟨ts, hts, hmem, hall⟩ := getTodos_contains e4 hf4 r4
      ⟨⟨w.db.users, w.db.todos ++ [⟨freshId (w.db.todos.map (fun t => t._id)), U,
        some (.str s), true⟩]⟩, w.log ++ [.todoCreate U (some (.str s))] ++
          [.todoFindOneAndUpdate (freshId (w.db.todos.map (fun t => t._id))) U true]⟩
      ⟨freshId (w.db.todos.map (fun t => t._id)), U, some (.str s), true⟩ (by simp)
    exact ⟨ts, hts, hmem, fun x hx hxu => hall x (by simp [hx]) hxu⟩

theorem create_list_complete_list_witness :
    ∃ t : Todo,
      (app demoEnv .postTodo demoPostTodo demoWorld).1 = ⟨201, .todo t⟩ ∧
      t.title = some (.str "Buy milk") ∧ t.completed = false ∧
      (∃ ts, (app demoEnv .getTodos demoGetTodos
          (app demoEnv .postTodo demoPostTodo demoWorld).2).1 = ⟨200, .todos ts⟩ ∧ t ∈ ts) ∧
      (app demoEnv .putUpdateTodo (demoComplete t._id)
          (app demoEnv .postTodo demoPostTodo demoWorld).2).1
        = ⟨200, .todo ⟨t._id, "u", some (.str "Buy milk"), true⟩⟩ ∧
      (app demoEnv .putUpdateTodo (demoComplete t._id)
          (app demoEnv .postTodo demoPostTodo demoWorld).2).2.db
        = ⟨demoWorld.db.users,
            demoWorld.db.todos ++ [⟨t._id, "u", some (.str "Buy milk"), true⟩]⟩ :=
  match create_list_complete_list demoEnv demoEnv demoEnv demoEnv demoEnv_faultless
      demoEnv_faultless demoEnv_faultless demoEnv_faultless demoWorld "u" "Buy milk"
      demoPostTodo demoGetTodos demoGetTodos (demoToken_authenticated "u" "" _)
      (demoToken_authenticated "u" "" _) (demoToken_authenticated "u" "" _) (by decide) with
  | ⟨t, hpost, _, htitle, hcompleted, _, hlist, hupdate⟩ =>
    ⟨t, hpost, htitle, hcompleted, hlist,
      (hupdate (demoComplete t._id) (demoToken_authenticated "u" t._id _) rfl rfl).1,
      (hupdate (demoComplete t._id) (demoToken_authenticated "u" t._id _) rfl rfl).2.1⟩

/-! ## Storage faults (C9) -/

theorem faultsReported_of_unchanged (env : Env) (w : World) (r : Response)
    (body : String → Body) : FaultsReported env w (r, w) body := by
  intro ops op e hlog hop _
  have : ops = [] := by simpa using hlog
  subst this
  cases hop

theorem auth_faultsReported (env : Env) (next : String → Request → World → Outcome)
    (req : Request) (w : World) (body : String → Body)
    (h : ∀ userId, FaultsReported env w (next userId req w) body) :
    FaultsReported env w (auth env next req w) body := by
  unfold auth
  split
  · exact faultsReported_of_unchanged env w _ body
  · split
    · exact faultsReported_of_unchanged env w _ body
    · split
      · exact faultsReported_of_unchanged env w _ body
      · exact h _

theorem postTodo_faultsReported (env : Env) (userId : String) (req : Request) (w : World) :
    FaultsReported env w (postTodo env userId req w) (.messageError "Error creating todo") := by
  intro ops op e hlog hop hfault
  simp only [postTodo, TodoModel.create, dbStep] at hlog ⊢
  cases hf : env.fault (.todoCreate userId (req.body.prop "title")) with
  | some e2 =>
    simp only [hf, List.append_cancel_left_eq] at hlog ⊢
    subst hlog
    simp only [List.mem_singleton] at hop
    subst hop
    rw [hf] at hfault
    cases hfault
    rfl
  | none =>
    simp only [hf, List.append_cancel_left_eq] at hlog
    subst hlog
    simp only [List.mem_singleton] at hop
    subst hop
    rw [hf] at hfault
    cases hfault

theorem getTodos_faultsReported (env : Env) (userId : String) (req : Request) (w : World) :
    FaultsReported env w (getTodos env userId req w) (.messageError "Error fetching todos") := by
  intro ops op e hlog hop hfault
  simp only [getTodos, TodoModel.find, dbStep] at hlog ⊢
  cases hf : env.fault (.todoFind userId) with
  | some e2 =>
    simp only [hf, List.append_cancel_left_eq] at hlog ⊢
    subst hlog
    simp only [List.mem_singleton] at hop
    subst hop
    rw [hf] at hfault
    cases hfault
    rfl
  | none =>
    have hl : ops = [.todoFind userId] := by
      simp only [hf] at hlog
      split at hlog <;> simpa using hlog.symm
    subst hl
    simp only [List.mem_singleton] at hop
    subst hop
    rw [hf] at hfault
    cases hfault

theorem deleteTodo_faultsReported (env : Env) (userId : String) (req : Request) (w : World) :
    FaultsReported env w (deleteTodo env userId req w) (.messageError "Error deleting todo") := by
  intro ops op e hlog hop hfault
  simp only [deleteTodo, TodoModel.findOne, TodoModel.findByIdAndDelete, dbStep] at hlog ⊢
  cases hf1 : env.fault (.todoFindOne req.params_id userId) with
  | some e1 =>
    simp only [hf1, List.append_cancel_left_eq] at hlog ⊢
    subst hlog
    simp only [List.mem_singleton] at hop
    subst hop
    rw [hf1] at hfault
    cases hfault
    rfl
  | none =>
    simp only [hf1] at hlog ⊢
    cases hfind : w.db.todos.find? (fun t => t._id == req.params_id && t.userId == userId) with
    | none =>
      simp only [hfind, List.append_cancel_left_eq] at hlog
      subst hlog
      simp only [List.mem_singleton] at hop
      subst hop
      rw [hf1] at hfault
      cases hfault
    | some t =>
      simp only [hfind] at hlog ⊢
      cases hf2 : env.fault (.todoFindByIdAndDelete req.params_id) with
      | some e2 =>
        simp only [hf2, List.append_assoc, List.append_cancel_left_eq] at hlog ⊢
        subst hlog
        simp only [List.singleton_append, List.mem_cons, List.mem_singleton,
          List.not_mem_nil, or_false] at hop
        rcases hop with hop | hop
        · subst hop
          rw [hf1] at hfault
          cases hfault
        · subst hop
          rw [hf2] at hfault
          cases hfault
          rfl
      | none =>
        simp only [hf2, List.append_assoc, List.append_cancel_left_eq] at hlog
        subst hlog
        simp only [List.singleton_append, List.mem_cons, List.mem_singleton,
          List.not_mem_nil, or_false] at hop
        rcases hop with hop | hop
        · subst hop
          rw [hf1] at hfault
          cases hfault
        · subst hop
          rw [hf2] at hfault
          cases hfault

theorem updateTodo_faultsReported (env : Env) (userId : String) (req : Request) (w : World) :
    FaultsReported env w (updateTodo env userId req w) (.messageError "Error updating todo") := by
  simp only [updateTodo]
  split
  · next completed _ _ =>
    intro ops op e hlog hop hfault
    simp only [TodoModel.findOneAndUpdate, dbStep] at hlog ⊢
    cases hf : env.fault (.todoFindOneAndUpdate req.params_id userId completed) with
    | some e2 =>
      simp only [hf, List.append_cancel_left_eq] at hlog ⊢
      subst hlog
      simp only [List.mem_singleton] at hop
      subst hop
      rw [hf] at hfault
      cases hfault
      rfl
    | none =>
      have hl : ops = [.todoFindOneAndUpdate req.params_id userId completed] := by
        simp only [hf] at hlog
        cases hr : (setCompletedFirst (fun t => t._id == req.params_id && t.userId == userId)
            completed w.db.todos).1 <;> simpa [hr] using hlog.symm
      subst hl
      simp only [List.mem_singleton] at hop
      subst hop
      rw [hf] at hfault
      cases hfault
  · exact faultsReported_of_unchanged env w _ _

theorem signup_faultsReported (env : Env) (req : Request) (w : World) :
    FaultsReported env w (signup env req w) (fun _ => .message "Error creating user") := by
  unfold signup
  cases hp : schema.safeParse env req.body with
  | error issues => exact faultsReported_of_unchanged env w _ _
  | ok data =>
    intro ops op e hlog hop hfault
    simp only [UserModel.findOne, UserModel.create, dbStep] at hlog ⊢
    cases hf1 : env.fault (.userFindOne (some (.str data.email))) with
    | some e1 => simp only [hf1]
    | none =>
      simp only [hf1] at hlog ⊢
      cases hfind : w.db.users.find? (matchesEmail env (some (.str data.email))) with
      | some u =>
        simp only [hfind, List.append_cancel_left_eq] at hlog
        subst hlog
        simp only [List.mem_singleton] at hop
        subst hop
        rw [hf1] at hfault
        cases hfault
      | none =>
        simp only [hfind] at hlog ⊢
        cases hf2 : env.fault
            (.userCreate data.userName data.email (env.bcryptHash data.password)) with
        | some e2 => simp only [hf2]
        | none =>
          simp only [hf2, List.append_assoc, List.append_cancel_left_eq] at hlog
          subst hlog
          simp only [List.singleton_append, List.mem_cons, List.mem_singleton,
            List.not_mem_nil, or_false] at hop
          rcases hop with hop | hop
          · subst hop
            rw [hf1] at hfault
            cases hfault
          · subst hop
            rw [hf2] at hfault
            cases hfault

theorem signin_faultsReported (env : Env) (req : Request) (w : World) :
    FaultsReported env w (signin env req w)
      (fun _ => .signinFailure false "Server error during signin") := by
  intro ops op e hlog hop hfault
  simp only [signin, UserModel.findOne, dbStep] at hlog ⊢
  cases hf1 : env.fault (.userFindOne (req.body.prop "email")) with
  | some e1 => simp only [hf1]
  | none =>
    have hl : ops = [.userFindOne (req.body.prop "email")] := by
      simp only [hf1] at hlog
      cases hfind : w.db.users.find? (matchesEmail env (req.body.prop "email")) with
      | none => simpa [hfind] using hlog.symm
      | some u =>
        simp only [hfind] at hlog
        cases hc : bcrypt.compare env (req.body.prop "password") u.password with
        | error e2 => simpa [hc] using hlog.symm
        | ok r => cases r <;> simpa [hc] using hlog.symm
    subst hl
    simp only [List.mem_singleton] at hop
    subst hop
    rw [hf1] at hfault
    cases hfault

/-- C9, as stated, fails for signup and signin: with the storage layer down
(`UserModel.findOne` raises "connection lost") both answer 500, but the body
is the generic message alone and has no field for the fault string. -/
theorem signup_signin_hide_fault :
    faultyEnv.fault (.userFindOne (some (.str "b@x.com"))) = some "connection lost" ∧
    (app faultyEnv .postSignup demoSignupFresh demoWorld).1
      = ⟨500, .message "Error creating user"⟩ ∧
    (app faultyEnv .postSignup demoSignupFresh demoWorld).1.body.error = none ∧
    faultyEnv.fault (.userFindOne (some (.str "a@x.com"))) = some "connection lost" ∧
    (app faultyEnv .postSignin demoSignin demoWorld).1
      = ⟨500, .signinFailure false "Server error during signin"⟩ ∧
    (app faultyEnv .postSignin demoSignin demoWorld).1.body.error = none ∧
    (app faultyEnv .getTodos demoGetTodos demoWorld).1.body.error = some "connection lost" := by
  decide

/-- C9, amended: on every route, if a storage operation performed for the
request raises a fault `e`, the response is 500. For the four task routes the
body is the route's generic message together with `e`; for signup and signin
the body is a generic message alone, without the fault string. The same
holds for the runtime fault of signin, `bcrypt.compare` throwing: 500 with
the generic message alone. -/
theorem storage_fault_answers_500 (env : Env) (route : Route) (req : Request) (w : World) :
    (∀ (ops : List DbOp) (op : DbOp) (e : String),
      (app env route req w).2.log = w.log ++ ops → op ∈ ops → env.fault op = some e →
      (app env route req w).1.status = 500 ∧
      (route = .postTodo →
        (app env route req w).1.body = .messageError "Error creating todo" e) ∧
      (route = .getTodos →
        (app env route req w).1.body = .messageError "Error fetching todos" e) ∧
      (route = .deleteTodo →
        (app env route req w).1.body = .messageError "Error deleting todo" e) ∧
      (route = .putUpdateTodo →
        (app env route req w).1.body = .messageError "Error updating todo" e) ∧
      (route = .postSignup → (app env route req w).1.body = .message "Error creating user") ∧
      (route = .postSignin →
        (app env route req w).1.body = .signinFailure false "Server error during signin")) ∧
    (∀ (u : User) (e : String), route = .postSignin →
      env.fault (.userFindOne (req.body.prop "email")) = none →
      w.db.users.find? (matchesEmail env (req.body.prop "email")) = some u →
      bcrypt.compare env (req.body.prop "password") u.password = .error e →
      (app env route req w).1
        = ⟨500, .signinFailure false "Server error during signin"⟩) := by
  constructor
  · intro ops op e hlog hop hfault
    cases route with
    | getRoot =>
      exact absurd hop (by
        have : ops = [] := by simpa [app, root] using hlog
        simp [this])
    | postSignup =>
      have h := signup_faultsReported env req w ops op e hlog hop hfault
      have h2 : (app env .postSignup req w).1 = ⟨500, .message "Error creating user"⟩ := h
      simp [h2]
    | postSignin =>
      have h := signin_faultsReported env req w ops op e hlog hop hfault
      have h2 : (app env .postSignin req w).1
          = ⟨500, .signinFailure false "Server error during signin"⟩ := h
      simp [h2]
    | postTodo =>
      have h2 : (app env .postTodo req w).1 = ⟨500, .messageError "Error creating todo" e⟩ :=
        auth_faultsReported env (postTodo env) req w _
          (fun u => postTodo_faultsReported env u req w) ops op e hlog hop hfault
      simp [h2]
    | getTodos =>
      have h2 : (app env .getTodos req w).1 = ⟨500, .messageError "Error fetching todos" e⟩ :=
        auth_faultsReported env (getTodos env) req w _
          (fun u => getTodos_faultsReported env u req w) ops op e hlog hop hfault
      simp [h2]
    | deleteTodo =>
      have h2 : (app env .deleteTodo req w).1 = ⟨500, .messageError "Error deleting todo" e⟩ :=
        auth_faultsReported env (deleteTodo env) req w _
          (fun u => deleteTodo_faultsReported env u req w) ops op e hlog hop hfault
      simp [h2]
    | putUpdateTodo =>
      have h2 : (app env .putUpdateTodo req w).1
          = ⟨500, .messageError "Error updating todo" e⟩ :=
        auth_faultsReported env (updateTodo env) req w _
          (fun u => updateTodo_faultsReported env u req w) ops op e hlog hop hfault
      simp [h2]
  · intro u e hr hf hfind hcmp
    subst hr
    simp [app, signin, UserModel.findOne, dbStep, hf, hfind, hcmp]

theorem storage_fault_answers_500_witness :
    ((app faultyEnv .deleteTodo (demoComplete "1") demoWorld).1.status = 500 ∧
      (app faultyEnv .deleteTodo (demoComplete "1") demoWorld).1.body
        = .messageError "Error deleting todo" "connection lost") ∧
    (app demoEnv .postSignin demoSigninNumericPassword demoWorld).1
      = ⟨500, .signinFailure false "Server error during signin"⟩ :=
  ⟨⟨((storage_fault_answers_500 faultyEnv .deleteTodo (demoComplete "1") demoWorld).1
      [.todoFindOne "1" "u"] (.todoFindOne "1" "u") "connection lost"
      (by decide) (by decide) rfl).1,
    ((storage_fault_answers_500 faultyEnv .deleteTodo (demoComplete "1") demoWorld).1
      [.todoFindOne "1" "u"] (.todoFindOne "1" "u") "connection lost"
      (by decide) (by decide) rfl).2.2.2.1 rfl⟩,
   (storage_fault_answers_500 demoEnv .postSignin demoSigninNumericPassword demoWorld).2
      ⟨"u", "ann", "a@x.com", "$secret"⟩ "data and hash must be strings" rfl rfl
      (by decide) rfl⟩

/-! ## Validation before storage (C10) -/

theorem schema_string_ok (fields : List (String × JVal)) (k s : String)
    (h : schema.string fields k = .ok s) : fields.lookup k = some (.str s) := by
  unfold schema.string at h
  split at h
  · cases h
  · next s2 heq =>
    cases h
    exact heq
  · cases h

theorem safeParse_ok_fields (env : Env) (body : ReqBody) (d : SignupData)
    (h : schema.safeParse env body = .ok d) :
    body.prop "userName" = some (.str d.userName) ∧ body.prop "email" = some (.str d.email) ∧
    body.prop "password" = some (.str d.password) ∧ env.isEmail d.email = true ∧
    5 ≤ utf16Length d.password := by
  cases body with
  | array items => simp [schema.safeParse] at h
  | object fields =>
    simp only [schema.safeParse] at h
    split at h
    · next userName email password h1 h2 h3 =>
      cases h
      simp only [schema.email] at h2
      simp only [schema.password] at h3
      cases he : schema.string fields "email" with
      | error i => simp [he] at h2
      | ok s =>
        cases hp : schema.string fields "password" with
        | error i => simp [hp] at h3
        | ok p =>
          simp only [he] at h2
          simp only [hp] at h3
          split at h2
          · next hmail =>
            split at h3
            · next hlen =>
              cases h2
              cases h3
              exact ⟨schema_string_ok fields _ _ h1, schema_string_ok fields _ _ he,
                schema_string_ok fields _ _ hp, hmail, hlen⟩
            · cases h3
          · cases h2
    · split at h <;> cases h

theorem signin_world (env : Env) (req : Request) (w : World) :
    (signin env req w).2.log = w.log ++ [.userFindOne (req.body.prop "email")] ∧
      (signin env req w).2.db = w.db := by
  simp only [signin, UserModel.findOne, dbStep]
  cases hf1 : env.fault (.userFindOne (req.body.prop "email")) with
  | some e1 => exact ⟨rfl, rfl⟩
  | none =>
    cases hfind : w.db.users.find? (matchesEmail env (req.body.prop "email")) with
    | none => exact ⟨rfl, rfl⟩
    | some u =>
      cases hcmp : bcrypt.compare env (req.body.prop "password") u.password with
      | error e2 => simp [hcmp]
      | ok r => cases r <;> simp [hcmp]

/-- C10, as stated, fails for signin: a body without the required `password`
field is not rejected as invalid input; the credential store is queried for
the email and the answer is the 401 of a failed login. -/
theorem signin_queries_store_without_password :
    demoSigninNoPassword.body.prop "password" = none ∧
    (app demoEnv .postSignin demoSigninNoPassword demoWorld).2.log
      = [.userFindOne (some (.str "nobody@x.com"))] ∧
    (app demoEnv .postSignin demoSigninNoPassword demoWorld).1
      = ⟨401, .signinFailure false "Invalid email or password"⟩ := by
  decide

/-- C10, amended: `POST /signup` with a body in which `userName`, `email` or
`password` is missing or is not a string, and `PUT /update-todo/:id` with a
body whose `completed` is missing or is not a boolean, are rejected before any
storage access: the world (store and list of storage operations) is unchanged,
and the status is 400 (401 or 403 when the update request fails the auth
gate). `POST /signin` does not validate its body: it always queries the
credential store with the `email` field as received, and never writes. -/
theorem invalid_body_no_storage_access (env : Env) (req : Request) (w : World) :
    ((∃ k, k ∈ ["userName", "email", "password"] ∧ ∀ s, req.body.prop k ≠ some (.str s)) →
      ∃ m, app env .postSignup req w = (⟨400, .message m⟩, w)) ∧
    ((∀ b, req.body.prop "completed" ≠ some (.bool b)) →
      (app env .putUpdateTodo req w).2 = w ∧
      ((app env .putUpdateTodo req w).1.status = 400 ∨
        (app env .putUpdateTodo req w).1.status = 401 ∨
        (app env .putUpdateTodo req w).1.status = 403) ∧
      ∀ userId, Authenticated env req userId → (app env .putUpdateTodo req w).1.status = 400) ∧
    ((app env .postSignin req w).2.log = w.log ++ [.userFindOne (req.body.prop "email")] ∧
      (app env .postSignin req w).2.db = w.db) := by
  refine ⟨?_, ?_, ?_⟩
  · rintro ⟨k, hk, hbad⟩
    cases hp : schema.safeParse env req.body with
    | error issues => exact ⟨env.zodMessage issues.1, by simp [app, signup, hp]⟩
    | ok d =>
      obtain ⟨h1, h2, h3, _⟩ := safeParse_ok_fields env req.body d hp
      simp only [List.mem_cons, List.mem_singleton, List.not_mem_nil, or_false] at hk
      rcases hk with hk | hk | hk
      · exact absurd (hk ▸ h1) (hbad _)
      · exact absurd (hk ▸ h2) (hbad _)
      · exact absurd (hk ▸ h3) (hbad _)
  · intro hc
    have hupd : ∀ userId, updateTodo env userId req w
        = (⟨400, .message "Invalid input. Todo ID and completed status required"⟩, w) := by
      intro userId
      simp only [updateTodo]
      split
      · next completed _ h2 => exact absurd h2 (hc completed)
      · rfl
    refine ⟨?_, ?_, ?_⟩
    · simp only [app, auth]
      split
      · rfl
      · split
        · rfl
        · split
          · rfl
          · rw [hupd]
    · simp only [app, auth]
      split
      · right; left; rfl
      · split
        · right; left; rfl
        · split
          · right; right; rfl
          · left; rw [hupd]
    · intro userId ha
      simp only [app, auth_of_authenticated ha, hupd]
  · exact signin_world env req w

theorem invalid_body_no_storage_access_witness :
    (∃ m, app demoEnv .postSignup
        ⟨none, "", .object [("userName", .str "bob"), ("email", .num 5)]⟩ demoWorld
      = (⟨400, .message m⟩, demoWorld)) ∧
    (app demoEnv .putUpdateTodo (Request.mk (some (demoToken "u")) "1" (.object [])) demoWorld).2
      = demoWorld ∧
    (app demoEnv .putUpdateTodo
        (Request.mk (some (demoToken "u")) "1" (.object [])) demoWorld).1.status = 400 :=
  ⟨(invalid_body_no_storage_access demoEnv
      ⟨none, "", .object [("userName", .str "bob"), ("email", .num 5)]⟩ demoWorld).1
      ⟨"email", by decide, by intro s; simp [ReqBody.prop, List.lookup]⟩,
   ((invalid_body_no_storage_access demoEnv
      (Request.mk (some (demoToken "u")) "1" (.object [])) demoWorld).2.1
      (by intro b; simp [ReqBody.prop, List.lookup])).1,
   ((invalid_body_no_storage_access demoEnv
      (Request.mk (some (demoToken "u")) "1" (.object [])) demoWorld).2.1
      (by intro b; simp [ReqBody.prop, List.lookup])).2.2 "u"
      (demoToken_authenticated "u" "1" _)⟩

/-! ## The store invariants hold in every reachable state -/

theorem setCompletedFirst_ids (p : Todo → Bool) (c : Bool) (l : List Todo) :
    (setCompletedFirst p c l).2.map (fun t => t._id) = l.map (fun t => t._id) := by
  induction l with
  | nil => rfl
  | cons t ts ih =>
    simp only [setCompletedFirst]
    split
    · rfl
    · simp [ih]

theorem auth_preserves (P : World → Prop) (env : Env)
    (next : String → Request → World → Outcome) (req : Request) (w : World) (hw : P w)
    (h : ∀ userId, P (next userId req w).2) : P (auth env next req w).2 := by
  unfold auth
  split
  · exact hw
  · split
    · exact hw
    · split
      · exact hw
      · exact h _

theorem postTodo_keeps (env : Env) (userId : String) (req : Request) (w : World)
    (h : w.db.uniqueEmails ∧ w.db.uniqueTodoIds) :
    (postTodo env userId req w).2.db.uniqueEmails ∧
      (postTodo env userId req w).2.db.uniqueTodoIds := by
  simp only [postTodo, TodoModel.create, dbStep]
  cases hf : env.fault (.todoCreate userId (req.body.prop "title")) with
  | some e => exact h
  | none =>
    refine ⟨h.1, ?_⟩
    simp only [Db.uniqueTodoIds, List.map_append, List.map_cons, List.map_nil]
    rw [List.nodup_append]
    refine ⟨h.2, by simp, ?_⟩
    intro a ha hb
    simp only [List.mem_singleton] at hb
    exact freshId_not_mem _ (hb ▸ ha)

theorem getTodos_keeps (env : Env) (userId : String) (req : Request) (w : World) :
    (getTodos env userId req w).2.db = w.db := by
  simp only [getTodos, TodoModel.find, dbStep]
  cases hf : env.fault (.todoFind userId) with
  | some e => rfl
  | none =>
    simp only
    split <;> rfl

theorem deleteTodo_keeps (env : Env) (userId : String) (req : Request) (w : World)
    (h : w.db.uniqueEmails ∧ w.db.uniqueTodoIds) :
    (deleteTodo env userId req w).2.db.uniqueEmails ∧
      (deleteTodo env userId req w).2.db.uniqueTodoIds := by
  simp only [deleteTodo, TodoModel.findOne, TodoModel.findByIdAndDelete, dbStep]
  cases hf1 : env.fault (.todoFindOne req.params_id userId) with
  | some e => exact h
  | none =>
    cases hfind : w.db.todos.find? (fun t => t._id == req.params_id && t.userId == userId) with
    | none => exact h
    | some t =>
      cases hf2 : env.fault (.todoFindByIdAndDelete req.params_id) with
      | some e => exact h
      | none =>
        refine ⟨h.1, ?_⟩
        exact List.Nodup.sublist ((List.eraseP_sublist _).map _) h.2

theorem updateTodo_keeps (env : Env) (userId : String) (req : Request) (w : World)
    (h : w.db.uniqueEmails ∧ w.db.uniqueTodoIds) :
    (updateTodo env userId req w).2.db.uniqueEmails ∧
      (updateTodo env userId req w).2.db.uniqueTodoIds := by
  simp only [updateTodo]
  split
  · next completed _ _ =>
    simp only [TodoModel.findOneAndUpdate, dbStep]
    cases hf : env.fault (.todoFindOneAndUpdate req.params_id userId completed) with
    | some e => exact h
    | none =>
      have hids := setCompletedFirst_ids
        (fun t => t._id == req.params_id && t.userId == userId) completed w.db.todos
      have hgoal : (Db.mk w.db.users (setCompletedFirst
          (fun t => t._id == req.params_id && t.userId == userId) completed w.db.todos).2).uniqueEmails
          ∧ (Db.mk w.db.users (setCompletedFirst
          (fun t => t._id == req.params_id && t.userId == userId) completed w.db.todos).2).uniqueTodoIds := by
        refine ⟨h.1, ?_⟩
        simp only [Db.uniqueTodoIds, hids]
        exact h.2
      cases hr : (setCompletedFirst (fun t => t._id == req.params_id && t.userId == userId)
          completed w.db.todos).1 <;> simpa [hr] using hgoal
  · exact h

theorem signin_keeps (env : Env) (req : Request) (w : World) :
    (signin env req w).2.db = w.db :=
  (signin_world env req w).2

/-- Every request keeps task ids pairwise distinct and emails pairwise distinct. -/
theorem app_keeps_invariants (env : Env) (route : Route) (req : Request) (w : World)
    (h : w.db.uniqueEmails ∧ w.db.uniqueTodoIds) :
    (app env route req w).2.db.uniqueEmails ∧ (app env route req w).2.db.uniqueTodoIds := by
  cases route with
  | getRoot => exact h
  | postSignup =>
    refine ⟨signup_keeps_uniqueEmails env req w h.1, ?_⟩
    have := (signup_users env req w).1
    simpa [app, Db.uniqueTodoIds, this] using h.2
  | postSignin =>
    have : (app env .postSignin req w).2.db = w.db := signin_keeps env req w
    rw [this]
    exact h
  | postTodo =>
    exact auth_preserves (fun x => x.db.uniqueEmails ∧ x.db.uniqueTodoIds) env _ req w h
      (fun u => postTodo_keeps env u req w h)
  | getTodos =>
    exact auth_preserves (fun x => x.db.uniqueEmails ∧ x.db.uniqueTodoIds) env _ req w h
      (fun u => by simpa only [getTodos_keeps] using h)
  | deleteTodo =>
    exact auth_preserves (fun x => x.db.uniqueEmails ∧ x.db.uniqueTodoIds) env _ req w h
      (fun u => deleteTodo_keeps env u req w h)
  | putUpdateTodo =>
    exact auth_preserves (fun x => x.db.uniqueEmails ∧ x.db.uniqueTodoIds) env _ req w h
      (fun u => updateTodo_keeps env u req w h)

/-- Starting from the empty store, after any sequence of requests the task
ids are pairwise distinct and the emails are pairwise distinct. -/
theorem reachable_invariants (reqs : List (Env × Route × Request)) :
    (runAll reqs ⟨⟨[], []⟩, []⟩).db.uniqueEmails ∧
      (runAll reqs ⟨⟨[], []⟩, []⟩).db.uniqueTodoIds := by
  have key : ∀ (l : List (Env × Route × Request)) (w : World),
      (w.db.uniqueEmails ∧ w.db.uniqueTodoIds) →
      ((runAll l w).db.uniqueEmails ∧ (runAll l w).db.uniqueTodoIds) := by
    intro l
    induction l with
    | nil => intro w h; exact h
    | cons r rest ih =>
      intro w h
      obtain ⟨env, route, req⟩ := r
      exact ih _ (app_keeps_invariants env route req w h)
  exact key reqs _ ⟨by simp [Db.uniqueEmails], by simp [Db.uniqueTodoIds]⟩

end TodoBackend
